import Mathlib

/-
  Shallow embedding of src/sync_notion.py.

  Modelling conventions:
  - Timestamps are opaque Nat surrogates; an event's day key (the date
    component of its begin timestamp, event.begin.date()) is carried as a
    separate Nat field.
  - Python strings are Lean Strings; a Python None string is modelled as ""
    (the code only tests truthiness or applies `or ""`).
  - String.lower is modelled character-wise with Char.toLower (ASCII).
  - The Notion record store is a list of pages in query order; a database
    query with an equals filter returns the matching pages in that order,
    so results[0] is List.find?.  Page ids are unique in Notion, so
    "update the page whose id was returned by the query" is modelled as
    "update the first page satisfying the query predicate".
  - notion.blocks.children.append without an after-parameter appends the
    new blocks at the END of the child list (Notion API semantics).
  - notion.blocks.delete removes one block; the deletion loop over a
    snapshot of the children removes exactly the entries after the first
    marker child (ids are unique).
-/

namespace SyncNotion

/-- Python needle in haystack (substring containment) on the underlying
character lists. -/
def containsSub (needle hay : String) : Bool :=
  decide (needle.data <:+: hay.data)

/-- Python s.lower(), character-wise (ASCII model). -/
def lowerStr (s : String) : String :=
  String.mk (s.data.map Char.toLower)

/-- Python line.strip() is falsy exactly when every character is whitespace. -/
def isBlankLine (l : String) : Bool :=
  l.data.all (fun c => c.isWhitespace)

/-- Python str.splitlines restricted to the newline terminator: a trailing
newline does not produce a final empty line. Worker over the character list;
cur holds the current line reversed. -/
def splitLinesAux : List Char → List Char → List String
  | cur, [] => if cur.isEmpty then [] else [String.mk cur.reverse]
  | cur, c :: cs =>
      if c = '\n' then String.mk cur.reverse :: splitLinesAux [] cs
      else splitLinesAux (c :: cur) cs

/-- Python description.splitlines(). -/
def splitLines (s : String) : List String :=
  splitLinesAux [] s.data

/-- A calendar event as parsed from an ics feed: uid, name, description
(None modelled as ""), the date component of begin, and the begin/end
timestamps. -/
structure CalEvent where
  uid : String
  name : String
  descr : String
  day : Nat
  beginTime : Nat
  endTime : Option Nat
deriving DecidableEq

/-- An entry inside the synced toggle's child list: a paragraph carrying
the plain texts of its rich_text runs, or any non-paragraph child (tag
only; the code never inspects those beyond their type). -/
inductive Entry where
  | para (texts : List String)
  | other (tag : String)
deriving DecidableEq

/-- A page-level content-area block: a paragraph, a toggle carrying the
plain texts of its rich_text runs and its child entries, or any other
block type. -/
inductive Block where
  | para (texts : List String)
  | toggle (texts : List String) (children : List Entry)
  | other (tag : String)
deriving DecidableEq

def SYNC_MARKER : String := "[SYNCED DESCRIPTION]"
def SYNC_CHILD_MARKER : String := "[SYNCED CONTENT]"

/-- Lines 97-102: a page child is the synced toggle when its type is
toggle, its rich_text is nonempty, and SYNC_MARKER occurs in the plain
text of the FIRST run. -/
def isSyncedToggle : Block → Bool
  | .toggle (t :: _) _ => containsSub SYNC_MARKER t
  | _ => false

/-- Lines 112-117: a toggle child is the marker when its type is
paragraph, its rich_text is nonempty, and SYNC_CHILD_MARKER occurs in the
plain text of the first run. -/
def isMarkerChild : Entry → Bool
  | .para (t :: _) => containsSub SYNC_CHILD_MARKER t
  | _ => false

/-- The marker paragraph the code inserts (lines 130-141). -/
def markerBlock : Entry := .para [SYNC_CHILD_MARKER]

/-- Lines 150-164: a non-blank description line becomes a paragraph with
that line as its single text run; a blank line becomes a paragraph with an
empty rich_text list. -/
def renderLine (line : String) : Entry :=
  if isBlankLine line then .para [] else .para [line]

/-- The entries appended for a description (guard: if description, lines
147 and 199). -/
def descBlocks (d : String) : List Entry :=
  if d = "" then [] else (splitLines d).map renderLine

/-- Lines 119-127: the deletion loop keeps the children up to and
including the first marker child and deletes everything after it. -/
def takeThroughMarker : List Entry → List Entry
  | [] => []
  | b :: bs => if isMarkerChild b then [b] else b :: takeThroughMarker bs

/-- Lines 110-166: the new child list of the synced toggle.  If a marker
child exists, everything after it is deleted and the description entries
are appended at the end; otherwise a marker paragraph is appended at the
end of the children (the append API adds at the end) and the description
entries are appended after it. -/
def newToggleChildren (old : List Entry) (d : String) : List Entry :=
  if (old.find? isMarkerChild).isSome then
    takeThroughMarker old ++ descBlocks d
  else
    old ++ [markerBlock] ++ descBlocks d

/-- Lines 170-194: the fresh toggle created when no synced toggle is
found.  Its rich_text runs are "Synced Description" and SYNC_MARKER (in
that order) and it starts with one marker child. -/
def freshToggle : Block :=
  .toggle ["Synced Description", SYNC_MARKER] [markerBlock]

/-- Replace the first element satisfying p by its image under f. -/
def updateFirst {α : Type} (p : α → Bool) (f : α → α) : List α → List α
  | [] => []
  | b :: bs => if p b then f b :: bs else b :: updateFirst p f bs

def getChildren : Block → List Entry
  | .toggle _ cs => cs
  | _ => []

def setChildren : Block → List Entry → Block
  | .toggle ts _, cs => .toggle ts cs
  | b, _ => b

/-- Line 219: append extra entries into the children of the LAST page
block (toggle_id = results[-1]).  Unreachable for an empty page since a
toggle was just appended. -/
def appendToLast : List Block → List Entry → List Block
  | [], _ => []
  | [b], extra => [setChildren b (getChildren b ++ extra)]
  | b :: bs, extra => b :: appendToLast bs extra

/-- Lines 94-220: the content-area reconciliation performed on an
existing page (replace-after-marker variant).  The first page block
recognized as the synced toggle gets its children rewritten; if none is
recognized a fresh toggle is appended at the end of the page and, when the
description is nonempty, the description blocks are appended into the last
page block (the toggle just created). -/
def reconcileReplace (blocks : List Block) (d : String) : List Block :=
  if (blocks.find? isSyncedToggle).isSome then
    updateFirst isSyncedToggle
      (fun b => setChildren b (newToggleChildren (getChildren b) d)) blocks
  else
    let bs2 := blocks ++ [freshToggle]
    if d = "" then bs2 else appendToLast bs2 (descBlocks d)

/-- A Notion page of the target database: the Event ID rich_text
property, the Assignment Title title property (none models an empty title
array), the Class select, Start/End Time dates, the Description rich_text
property, and the page's content-area blocks. -/
structure Page where
  eventId : String
  assignmentTitle : Option String
  className : String
  startTime : Nat
  endTime : Option Nat
  descriptionProp : String
  blocks : List Block
deriving DecidableEq

/-- Lines 26-36: query the database for pages whose Event ID rich_text
equals event_id and return results[0], or None when the result list is
empty. -/
def find_existing_page (pages : List Page) (event_id : String) : Option Page :=
  pages.find? (fun pg => pg.eventId == event_id)

/-- Lines 38-43: group events by the date component of begin.  The bucket
of a day, in source order. -/
def events_by_day (events : List CalEvent) (day : Nat) : List CalEvent :=
  events.filter (fun e => e.day == day)

/-- The day keys of events in first-occurrence order (Python dict
insertion order of events_by_day). -/
def insertDay (acc : List Nat) (d : Nat) : List Nat :=
  if d ∈ acc then acc else acc ++ [d]

def dayKeys (events : List CalEvent) : List Nat :=
  events.foldl (fun acc e => insertDay acc e.day) []

/-- Lines 45-52: the set of Assignment Title contents over pages whose
title array is nonempty. -/
def get_existing_titles (pages : List Page) : List String :=
  pages.filterMap (fun pg => pg.assignmentTitle)

/-- Lines 54-58: the first same-day candidate e with e.name and
target.name truthy and e.name.lower() a substring of target.name.lower(). -/
def find_matching_event (target : CalEvent) : List CalEvent → Option CalEvent
  | [] => none
  | e :: es =>
      if e.name != "" && target.name != "" &&
          containsSub (lowerStr e.name) (lowerStr target.name) then some e
      else find_matching_event target es

/-- Line 68: class_name is the text before the first colon when the title
contains one, else "Unknown" (Python title.split(":")[0]). -/
def deriveClass (title : String) : String :=
  if ':' ∈ title.data then String.mk (title.data.takeWhile (fun c => c ≠ ':'))
  else "Unknown"

def pointerStr : String := "See full description inside page →"

/-- Lines 79-92 and 94-220 applied to one page: update the structured
properties in place, then reconcile the content area with the full
description. -/
def updatedPage (e a : CalEvent) (pg : Page) : Page :=
  { pg with
      assignmentTitle := some e.name
      className := deriveClass e.name
      startTime := a.beginTime
      endTime := a.endTime
      descriptionProp := pointerStr
      blocks := reconcileReplace pg.blocks e.descr }

/-- Lines 63-220: upsert_notion_event.  The page lookup is by Event ID;
when a page is found its properties are updated and its content area
reconciled.  When no page is found the function body ends: the whole
update-and-reconcile suite is inside the if existing_page branch and
there is no else branch, so the store is left unchanged. -/
def upsert_notion_event (pages : List Page) (e a : CalEvent) : List Page :=
  match find_existing_page pages e.uid with
  | some _ => updateFirst (fun pg => pg.eventId == e.uid) (updatedPage e a) pages
  | none => pages

/-- Lines 237-247: the per-day loop over secondary events.  An event
whose title is in existing_titles is skipped; otherwise the matcher runs
and, on a match, upsert_notion_event. -/
def syncDay (titles : List String) (eventsA : List CalEvent) :
    List Page → List CalEvent → List Page
  | pages, [] => pages
  | pages, b :: bs =>
      if b.name ∈ titles then syncDay titles eventsA pages bs
      else
        match find_matching_event b eventsA with
        | some m => syncDay titles eventsA (upsert_notion_event pages b m) bs
        | none => syncDay titles eventsA pages bs

/-- Lines 233-247: the loop over the secondary calendar's days; a day with
no primary events is skipped. -/
def syncDays (titles : List String) (calA calB : List CalEvent) :
    List Page → List Nat → List Page
  | pages, [] => pages
  | pages, d :: ds =>
      if events_by_day calA d = [] then syncDays titles calA calB pages ds
      else
        syncDays titles calA calB
          (syncDay titles (events_by_day calA d) pages (events_by_day calB d)) ds

/-- Lines 222-247: main after the calendar fetches, as a function of the
initial store state and the two parsed calendars. -/
def mainSync (pages : List Page) (calA calB : List CalEvent) : List Page :=
  syncDays (get_existing_titles pages) calA calB pages (dayKeys calB)

/-
  Fallible variant: the Notion query inside find_existing_page can raise
  (modelled by an oracle listing the event ids whose lookup fails).  The
  source wraps none of these calls in try/except, so an exception
  propagates out of upsert_notion_event and out of main.
-/

def lookupFailMsg : String := "notion query raised"

def find_existing_pageE (failIds : List String) (pages : List Page)
    (event_id : String) : Except String (Option Page) :=
  if event_id ∈ failIds then .error lookupFailMsg
  else .ok (find_existing_page pages event_id)

def upsert_notion_eventE (failIds : List String) (pages : List Page)
    (e a : CalEvent) : Except String (List Page) :=
  match find_existing_pageE failIds pages e.uid with
  | .error msg => .error msg
  | .ok (some _) =>
      .ok (updateFirst (fun pg => pg.eventId == e.uid) (updatedPage e a) pages)
  | .ok none => .ok pages

def syncDayE (failIds : List String) (titles : List String)
    (eventsA : List CalEvent) :
    List Page → List CalEvent → Except String (List Page)
  | pages, [] => .ok pages
  | pages, b :: bs =>
      if b.name ∈ titles then syncDayE failIds titles eventsA pages bs
      else
        match find_matching_event b eventsA with
        | some m =>
            match upsert_notion_eventE failIds pages b m with
            | .error msg => .error msg
            | .ok ps2 => syncDayE failIds titles eventsA ps2 bs
        | none => syncDayE failIds titles eventsA pages bs

def syncDaysE (failIds : List String) (titles : List String)
    (calA calB : List CalEvent) :
    List Page → List Nat → Except String (List Page)
  | pages, [] => .ok pages
  | pages, d :: ds =>
      if events_by_day calA d = [] then syncDaysE failIds titles calA calB pages ds
      else
        match syncDayE failIds titles (events_by_day calA d) pages
            (events_by_day calB d) with
        | .error msg => .error msg
        | .ok ps2 => syncDaysE failIds titles calA calB ps2 ds

def mainSyncE (failIds : List String) (pages : List Page)
    (calA calB : List CalEvent) : Except String (List Page) :=
  syncDaysE failIds (get_existing_titles pages) calA calB pages (dayKeys calB)

/-- The structured fields of a page (everything except the content-area
blocks). -/
def fieldsOf (pg : Page) :
    String × Option String × String × Nat × Option Nat × String :=
  (pg.eventId, pg.assignmentTitle, pg.className, pg.startTime, pg.endTime,
    pg.descriptionProp)

/-- The match condition of find_matching_event, as a proposition. -/
def matchCond (target e : CalEvent) : Prop :=
  e.name ≠ "" ∧ target.name ≠ "" ∧
    (lowerStr e.name).data <:+: (lowerStr target.name).data

instance (target e : CalEvent) : Decidable (matchCond target e) := by
  unfold matchCond; infer_instance

/-
  Helper lemmas.
-/

theorem matchCondB_iff (t e : CalEvent) :
    (e.name != "" && t.name != "" &&
        containsSub (lowerStr e.name) (lowerStr t.name)) = true ↔ matchCond t e := by
  simp [matchCond, containsSub, Bool.and_eq_true, and_assoc]

theorem find?_append_false {α : Type} (p : α → Bool) {l : List α}
    (h : ∀ b ∈ l, p b = false) (r : List α) :
    (l ++ r).find? p = r.find? p := by
  induction l with
  | nil => rfl
  | cons a l ih =>
      have ha : p a = false := h a (by simp)
      simp only [List.cons_append]
      rw [List.find?_cons_of_neg _ (by simp [ha])]
      exact ih (fun b hb => h b (by simp [hb]))

theorem updateFirst_append_false {α : Type} (p : α → Bool) (f : α → α)
    {l : List α} (h : ∀ b ∈ l, p b = false) (r : List α) :
    updateFirst p f (l ++ r) = l ++ updateFirst p f r := by
  induction l with
  | nil => rfl
  | cons a l ih =>
      have ha : p a = false := h a (by simp)
      simp only [List.cons_append, updateFirst, ha, Bool.false_eq_true, if_false,
        List.append_eq]
      rw [ih (fun b hb => h b (by simp [hb]))]

theorem takeThroughMarker_split {pre : List Entry}
    (h : ∀ b ∈ pre, isMarkerChild b = false) (m : Entry) (post : List Entry)
    (hm : isMarkerChild m = true) :
    takeThroughMarker (pre ++ m :: post) = pre ++ [m] := by
  induction pre with
  | nil => simp [takeThroughMarker, hm]
  | cons a l ih =>
      have ha : isMarkerChild a = false := h a (by simp)
      simp only [List.cons_append, takeThroughMarker, ha, Bool.false_eq_true, if_false,
        List.append_eq]
      rw [ih (fun b hb => h b (by simp [hb]))]

theorem descBlocks_eq (d : String) :
    descBlocks d = (splitLines d).map renderLine := by
  by_cases h : d = ""
  · subst h; rfl
  · simp [descBlocks, h]

theorem updateFirst_find?_isSome {α : Type} (p : α → Bool) (f : α → α)
    (hf : ∀ a, p (f a) = p a) (l : List α) :
    ((updateFirst p f l).find? p).isSome = (l.find? p).isSome := by
  induction l with
  | nil => rfl
  | cons a l ih =>
      by_cases h : p a = true
      · simp [updateFirst, h, List.find?_cons_of_pos _ h,
          List.find?_cons_of_pos _ ((hf a).trans h)]
      · have h' : p a = false := by revert h; cases p a <;> simp
        simp only [updateFirst, h', Bool.false_eq_true, if_false]
        rw [List.find?_cons_of_neg _ (by simp [h']),
          List.find?_cons_of_neg _ (by simp [h'])]
        exact ih

theorem updateFirst_twice_map {α β : Type} (p : α → Bool) (f : α → α)
    (g : α → β) (hf : ∀ a, p (f a) = p a) (hg : ∀ a, g (f (f a)) = g (f a))
    (l : List α) :
    (updateFirst p f (updateFirst p f l)).map g = (updateFirst p f l).map g := by
  induction l with
  | nil => rfl
  | cons a l ih =>
      by_cases h : p a = true
      · simp [updateFirst, h, (hf a).trans h, hg a]
      · have h' : p a = false := by revert h; cases p a <;> simp
        simp only [updateFirst, h', Bool.false_eq_true, if_false, List.map_cons]
        rw [ih]

/-
  Claim theorems.
-/

/-- Claim C1 (code bug): for a matched pair whose event id has no existing
record, upsert_notion_event performs no create at all — the store is
returned unchanged and no record with the event's identifier exists
afterwards.  The claim (and main's "Created" message) say a new record
with the derived fields and a seeded synced region is created; the code's
entire update-and-reconcile suite sits inside the if existing_page branch,
which has no else. -/
theorem upsert_creates_no_record :
    upsert_notion_event [⟨"other", some "Other", "Unknown", 0, none, "", []⟩]
        ⟨"u1", "Lab2", "Bring laptop", 5, 900, some 1000⟩
        ⟨"a1", "Lab2", "", 5, 900, some 1000⟩
      = [⟨"other", some "Other", "Unknown", 0, none, "", []⟩]
    ∧ find_existing_page
        (upsert_notion_event [⟨"other", some "Other", "Unknown", 0, none, "", []⟩]
          ⟨"u1", "Lab2", "Bring laptop", 5, 900, some 1000⟩
          ⟨"a1", "Lab2", "", 5, 900, some 1000⟩) "u1" = none := by
  decide

/-- Claim C2, counterexample: a legacy record whose title is "Lab2" and
whose identifier field is empty is NOT found when locating with
identifier "u1" — find_existing_page (the whole Page Locator) takes no
title argument, performs no title fallback and no retrofit. -/
theorem locate_no_title_fallback :
    find_existing_page [⟨"", some "Lab2", "Unknown", 0, none, "", []⟩] "u1" = none
    ∧ (⟨"", some "Lab2", "Unknown", 0, none, "", []⟩ : Page).assignmentTitle
        = some "Lab2" := by
  decide

/-- Claim C2, amended: the Page Locator queries by identifier only; it
returns none exactly when no record's identifier field equals the query
(titles are never consulted), and any record it returns carries that
identifier and is in the store.  It is a pure lookup: no retrofit write
occurs. -/
theorem find_existing_page_spec (pages : List Page) (eid : String) :
    (find_existing_page pages eid = none ↔ ∀ pg ∈ pages, pg.eventId ≠ eid)
    ∧ ∀ pg, find_existing_page pages eid = some pg →
        pg.eventId = eid ∧ pg ∈ pages := by
  constructor
  · simp [find_existing_page, List.find?_eq_none]
  · intro pg h
    refine ⟨?_, List.mem_of_find?_eq_some h⟩
    have hp := List.find?_some h
    simpa using hp

/-- Witness for find_existing_page_spec at a concrete store. -/
theorem find_existing_page_spec_witness :
    find_existing_page [⟨"zz", none, "Unknown", 0, none, "", []⟩] "u1" = none :=
  (find_existing_page_spec [⟨"zz", none, "Unknown", 0, none, "", []⟩] "u1").1.mpr
    (by decide)

/-- Claim C5: when the recognized synced toggle holds a marker entry,
reconcileReplace deletes every entry after the (first) marker and appends
exactly the description's lines, in order, right after the marker:
non-blank lines as one-run text paragraphs, blank lines as paragraphs
with an empty rich_text list.  Entries before the marker and blocks
around the toggle pass through unchanged. -/
theorem reconcile_replace_after_marker
    (pb pa : List Block) (ts : List String) (pre post : List Entry)
    (m : Entry) (d : String)
    (hpb : ∀ b ∈ pb, isSyncedToggle b = false)
    (ht : isSyncedToggle (Block.toggle ts (pre ++ m :: post)) = true)
    (hpre : ∀ b ∈ pre, isMarkerChild b = false)
    (hm : isMarkerChild m = true) :
    reconcileReplace (pb ++ Block.toggle ts (pre ++ m :: post) :: pa) d
      = pb ++ Block.toggle ts (pre ++ m :: (splitLines d).map renderLine) :: pa
    ∧ (∀ line, isBlankLine line = false → renderLine line = Entry.para [line])
    ∧ (∀ line, isBlankLine line = true → renderLine line = Entry.para []) := by
  refine ⟨?_, fun line hl => by simp [renderLine, hl],
    fun line hl => by simp [renderLine, hl]⟩
  have hfind : ((pb ++ Block.toggle ts (pre ++ m :: post) :: pa).find? isSyncedToggle)
      = some (Block.toggle ts (pre ++ m :: post)) := by
    rw [find?_append_false _ hpb]
    exact List.find?_cons_of_pos _ ht
  have hcfind : ((pre ++ m :: post).find? isMarkerChild) = some m := by
    rw [find?_append_false _ hpre]
    exact List.find?_cons_of_pos _ hm
  have hnew : newToggleChildren (pre ++ m :: post) d
      = pre ++ m :: (splitLines d).map renderLine := by
    unfold newToggleChildren
    rw [hcfind]
    simp only [Option.isSome_some, if_true]
    rw [takeThroughMarker_split hpre m post hm, descBlocks_eq]
    simp
  unfold reconcileReplace
  rw [hfind]
  simp only [Option.isSome_some, if_true]
  rw [updateFirst_append_false _ _ hpb]
  simp only [updateFirst, ht, if_true]
  rw [show getChildren (Block.toggle ts (pre ++ m :: post)) = pre ++ m :: post
    from rfl] at *
  rw [hnew]
  rfl

/-- Witness for reconcile_replace_after_marker on a concrete content
area: a paragraph outside the toggle, a user line before the marker, one
stale synced entry after it, and a description with a blank middle line. -/
theorem reconcile_replace_after_marker_witness :
    reconcileReplace
        [Block.para ["intro"],
         Block.toggle ["my notes [SYNCED DESCRIPTION]"]
           [Entry.para ["user line"], Entry.para ["[SYNCED CONTENT]"],
            Entry.para ["old synced"]]]
        "Bring laptop\n\nBring pen"
      = [Block.para ["intro"],
         Block.toggle ["my notes [SYNCED DESCRIPTION]"]
           [Entry.para ["user line"], Entry.para ["[SYNCED CONTENT]"],
            Entry.para ["Bring laptop"], Entry.para [], Entry.para ["Bring pen"]]]
    ∧ renderLine "Bring laptop" = Entry.para ["Bring laptop"]
    ∧ renderLine "" = Entry.para [] := by
  have h := reconcile_replace_after_marker
    [Block.para ["intro"]] []
    ["my notes [SYNCED DESCRIPTION]"]
    [Entry.para ["user line"]] [Entry.para ["old synced"]]
    (Entry.para ["[SYNCED CONTENT]"])
    "Bring laptop\n\nBring pen"
    (by decide) (by decide) (by decide) (by decide)
  exact ⟨h.1.trans (by decide), h.2.1 "Bring laptop" (by decide),
    h.2.2 "" (by decide)⟩

/-- Claim C6 (code bug): on a recognized synced toggle that has children
but no marker entry, the marker is appended at the END of the children
(the append API adds at the bottom), not created as the first item — the
code's own comment says "insert one at the top". -/
theorem marker_created_at_end_not_top :
    reconcileReplace
        [Block.toggle ["see [SYNCED DESCRIPTION]"] [Entry.para ["user note"]]]
        "Bring laptop"
      = [Block.toggle ["see [SYNCED DESCRIPTION]"]
          [Entry.para ["user note"], markerBlock, Entry.para ["Bring laptop"]]]
    ∧ (newToggleChildren [Entry.para ["user note"]] "Bring laptop").head?
        ≠ some markerBlock
    ∧ isMarkerChild markerBlock = true := by
  decide

/-- Claim C7 (code bug): the toggle created by reconcileReplace itself is
never recognized on the next invocation (detection reads only the FIRST
rich_text run, but the fresh toggle's first run is "Synced Description";
the SYNC_MARKER sits in the second run).  Reconciling the very state a
previous reconcile produced therefore appends a second toggle with a
second marker entry: the marker is duplicated instead of reused. -/
theorem second_marker_created_on_rerun :
    reconcileReplace (reconcileReplace [] "Bring laptop") "Bring laptop"
      = [Block.toggle ["Synced Description", SYNC_MARKER]
           [markerBlock, Entry.para ["Bring laptop"]],
         Block.toggle ["Synced Description", SYNC_MARKER]
           [markerBlock, Entry.para ["Bring laptop"]]]
    ∧ isSyncedToggle freshToggle = false
    ∧ isMarkerChild markerBlock = true := by
  decide

/-- upsert_notion_event as an if on the lookup result. -/
theorem upsert_eq (pages : List Page) (e a : CalEvent) :
    upsert_notion_event pages e a
      = if ((pages.find? (fun pg => pg.eventId == e.uid)).isSome) then
          updateFirst (fun pg => pg.eventId == e.uid) (updatedPage e a) pages
        else pages := by
  cases h : pages.find? (fun pg => pg.eventId == e.uid) with
  | none => simp [upsert_notion_event, find_existing_page, h]
  | some pg => simp [upsert_notion_event, find_existing_page, h]

/-- Claim C8: find_matching_event returns none exactly when no candidate
satisfies the match condition (candidate title non-empty, target title
non-empty, lowercased candidate title a substring of the lowercased
target title); any returned candidate satisfies the condition and is the
FIRST such candidate in order; and an empty target title forces none. -/
theorem find_matching_event_spec (t : CalEvent) (cs : List CalEvent) :
    (find_matching_event t cs = none ↔ ∀ e ∈ cs, ¬ matchCond t e)
    ∧ (∀ r, find_matching_event t cs = some r →
        matchCond t r ∧ ∃ l1 l2, cs = l1 ++ r :: l2 ∧ ∀ e ∈ l1, ¬ matchCond t e)
    ∧ (t.name = "" → find_matching_event t cs = none) := by
  induction cs with
  | nil =>
      refine ⟨by simp [find_matching_event], ?_, fun _ => rfl⟩
      intro r h
      simp [find_matching_event] at h
  | cons e es ih =>
      by_cases h : matchCond t e
      · have hb : (e.name != "" && t.name != "" &&
            containsSub (lowerStr e.name) (lowerStr t.name)) = true :=
          (matchCondB_iff t e).mpr h
        have hfind : find_matching_event t (e :: es) = some e := by
          simp [find_matching_event, hb]
        refine ⟨?_, ?_, ?_⟩
        · rw [hfind]
          exact ⟨fun hn => by simp at hn,
            fun hall => absurd h (hall e (by simp))⟩
        · intro r hr
          rw [hfind] at hr
          injection hr with hr
          subst hr
          exact ⟨h, [], es, rfl, by simp⟩
        · intro ht
          exact (h.2.1 ht).elim
      · have hb : (e.name != "" && t.name != "" &&
            containsSub (lowerStr e.name) (lowerStr t.name)) = false := by
          cases hc : (e.name != "" && t.name != "" &&
              containsSub (lowerStr e.name) (lowerStr t.name)) with
          | true => exact absurd ((matchCondB_iff t e).mp hc) h
          | false => rfl
        have hstep : find_matching_event t (e :: es) = find_matching_event t es := by
          simp [find_matching_event, hb]
        refine ⟨?_, ?_, ?_⟩
        · rw [hstep, ih.1]
          simp [List.forall_mem_cons, h]
        · intro r hr
          rw [hstep] at hr
          obtain ⟨hm, l1, l2, heq, hl1⟩ := ih.2.1 r hr
          exact ⟨hm, e :: l1, l2, by rw [heq, List.cons_append],
            List.forall_mem_cons.mpr ⟨h, hl1⟩⟩
        · intro ht
          rw [hstep]
          exact ih.2.2 ht

/-- Witness for find_matching_event_spec: spec scenario 1 — candidate
title "Homework 1" is not a substring of target title "CS101: HW1"
case-insensitively, so no match. -/
theorem find_matching_event_spec_witness :
    find_matching_event ⟨"u", "CS101: HW1", "", 5, 0, none⟩
        [⟨"a", "Homework 1", "", 5, 0, none⟩] = none :=
  (find_matching_event_spec ⟨"u", "CS101: HW1", "", 5, 0, none⟩
    [⟨"a", "Homework 1", "", 5, 0, none⟩]).1.mpr (by decide)

/-- Claim C9, counterexample: an event with an empty title is stored with
an empty title — there is no "Untitled Event" fallback anywhere in
upsert_notion_event. -/
theorem no_untitled_fallback :
    (upsert_notion_event [⟨"u0", some "x", "Unknown", 0, none, "", []⟩]
        ⟨"u0", "", "d", 5, 900, none⟩ ⟨"a0", "t", "", 5, 900, none⟩).map
        (fun pg => pg.assignmentTitle)
      = [some ""]
    ∧ some ("" : String) ≠ some "Untitled Event" := by
  decide

/-- Claim C9, amended: when the locator finds a record, upsert updates it
in place; the stored title is taken directly from the secondary event
(no fallback), the category is the text before the first colon in the
title and "Unknown" when the title has no colon, start/end come from the
primary event, the record's identifier field is left as it was (the
secondary event's identifier serves as the lookup key), and the short
description field is set to the fixed pointer string. -/
theorem upsert_updates_fields (ps1 ps2 : List Page) (pg : Page) (e a : CalEvent)
    (h1 : ∀ q ∈ ps1, q.eventId ≠ e.uid) (h2 : pg.eventId = e.uid) :
    upsert_notion_event (ps1 ++ pg :: ps2) e a = ps1 ++ updatedPage e a pg :: ps2
    ∧ (updatedPage e a pg).assignmentTitle = some e.name
    ∧ (updatedPage e a pg).className = deriveClass e.name
    ∧ (':' ∈ e.name.data →
        (updatedPage e a pg).className
          = String.mk (e.name.data.takeWhile (fun c => c ≠ ':')))
    ∧ (':' ∉ e.name.data → (updatedPage e a pg).className = "Unknown")
    ∧ (updatedPage e a pg).startTime = a.beginTime
    ∧ (updatedPage e a pg).endTime = a.endTime
    ∧ (updatedPage e a pg).eventId = pg.eventId
    ∧ (updatedPage e a pg).descriptionProp = "See full description inside page →" := by
  have hb1 : ∀ q ∈ ps1, (fun q : Page => q.eventId == e.uid) q = false :=
    fun q hq => by simp [h1 q hq]
  have hfind : ((ps1 ++ pg :: ps2).find? (fun q => q.eventId == e.uid)) = some pg := by
    rw [find?_append_false _ hb1]
    exact List.find?_cons_of_pos _ (by simp [h2])
  refine ⟨?_, rfl, rfl, ?_, ?_, rfl, rfl, rfl, rfl⟩
  · rw [upsert_eq, hfind]
    simp only [Option.isSome_some, if_true]
    rw [updateFirst_append_false _ _ hb1]
    simp [updateFirst, h2]
  · intro hc
    simp [updatedPage, deriveClass, hc]
  · intro hc
    simp [updatedPage, deriveClass, hc]

/-- Witness for upsert_updates_fields: a store holding the record for
"u1", an event titled "CS101: HW1"; the class comes out as "CS101". -/
theorem upsert_updates_fields_witness :
    upsert_notion_event [⟨"u1", some "old", "Unknown", 0, none, "", []⟩]
        ⟨"u1", "CS101: HW1", "Read ch.1", 5, 900, some 1000⟩
        ⟨"a1", "Homework", "", 5, 900, some 1000⟩
      = [updatedPage ⟨"u1", "CS101: HW1", "Read ch.1", 5, 900, some 1000⟩
          ⟨"a1", "Homework", "", 5, 900, some 1000⟩
          ⟨"u1", some "old", "Unknown", 0, none, "", []⟩]
    ∧ (updatedPage ⟨"u1", "CS101: HW1", "Read ch.1", 5, 900, some 1000⟩
        ⟨"a1", "Homework", "", 5, 900, some 1000⟩
        ⟨"u1", some "old", "Unknown", 0, none, "", []⟩).className = "CS101" :=
  ⟨(upsert_updates_fields [] [] ⟨"u1", some "old", "Unknown", 0, none, "", []⟩
      ⟨"u1", "CS101: HW1", "Read ch.1", 5, 900, some 1000⟩
      ⟨"a1", "Homework", "", 5, 900, some 1000⟩ (by simp) rfl).1,
    by decide⟩

/-- Claim C10: upsert is idempotent on the structured fields — running it
twice with the same matched pair leaves every page's structured fields
(identifier, title, class, start, end, short description) identical to
what one run produces. -/
theorem upsert_idempotent_on_fields (pages : List Page) (e a : CalEvent) :
    (upsert_notion_event (upsert_notion_event pages e a) e a).map fieldsOf
      = (upsert_notion_event pages e a).map fieldsOf := by
  have hf : ∀ pg : Page,
      ((updatedPage e a pg).eventId == e.uid) = (pg.eventId == e.uid) :=
    fun pg => rfl
  rw [upsert_eq pages e a]
  by_cases h : ((pages.find? (fun pg => pg.eventId == e.uid)).isSome) = true
  · rw [if_pos h, upsert_eq]
    rw [updateFirst_find?_isSome (fun pg : Page => pg.eventId == e.uid)
      (updatedPage e a) hf pages]
    rw [if_pos h]
    exact updateFirst_twice_map (fun pg : Page => pg.eventId == e.uid)
      (updatedPage e a) fieldsOf hf (fun pg => rfl) pages
  · rw [if_neg h, upsert_eq, if_neg h]

/-- Claim C3, counterexample: an already-synced event (its title "Lab2"
is among the existing record titles) is skipped by the main loop — the
run leaves the store completely unchanged even though its description and
the primary event's times changed, and even though a direct upsert of the
pair WOULD have mutated the record. -/
theorem mainSync_skips_changed_event :
    mainSync [⟨"u1", some "Lab2", "Unknown", 0, none, "", []⟩]
        [⟨"a1", "Lab2", "", 5, 900, some 1000⟩]
        [⟨"u1", "Lab2", "Bring a pen", 5, 850, none⟩]
      = [⟨"u1", some "Lab2", "Unknown", 0, none, "", []⟩]
    ∧ upsert_notion_event [⟨"u1", some "Lab2", "Unknown", 0, none, "", []⟩]
        ⟨"u1", "Lab2", "Bring a pen", 5, 850, none⟩
        ⟨"a1", "Lab2", "", 5, 900, some 1000⟩
      ≠ [⟨"u1", some "Lab2", "Unknown", 0, none, "", []⟩] := by
  decide

/-- Claim C3, amended: the main loop skips every secondary event whose
title is among the record titles collected at the start of the run; such
an event is neither located nor mutated.  Only events whose titles are
absent from that set reach the matcher and upsert. -/
theorem mainSync_skips_existing_title (pages : List Page)
    (calA : List CalEvent) (b : CalEvent)
    (h : b.name ∈ get_existing_titles pages) :
    mainSync pages calA [b] = pages := by
  have hdk : dayKeys [b] = [b.day] := by simp [dayKeys, insertDay]
  have hb : events_by_day [b] b.day = [b] := by simp [events_by_day]
  unfold mainSync
  rw [hdk]
  by_cases hA : events_by_day calA b.day = []
  · simp [syncDays, hA]
  · simp [syncDays, hA, hb, syncDay, h]

/-- Witness for mainSync_skips_existing_title at a concrete run. -/
theorem mainSync_skips_existing_title_witness :
    mainSync [⟨"u9", some "Quiz1", "Unknown", 0, none, "", []⟩]
        [⟨"a1", "Quiz1", "", 5, 900, none⟩]
        [⟨"u9", "Quiz1", "Study", 5, 850, none⟩]
      = [⟨"u9", some "Quiz1", "Unknown", 0, none, "", []⟩] :=
  mainSync_skips_existing_title
    [⟨"u9", some "Quiz1", "Unknown", 0, none, "", []⟩]
    [⟨"a1", "Quiz1", "", 5, 900, none⟩]
    ⟨"u9", "Quiz1", "Study", 5, 850, none⟩ (by decide)

/-- Claim C4, counterexample: a lookup failure scoped to the first
event's record ("u1") aborts the whole run with an error — the second
event ("u2", whose lookup would have succeeded) is never processed.  With
no failing call the same run completes normally, so the abort is caused
by the single per-event failure, which the code does not catch. -/
theorem run_aborts_on_single_event_lookup_failure :
    mainSyncE ["u1"] []
        [⟨"a1", "Lab2", "", 5, 900, some 1000⟩,
         ⟨"a2", "Quiz1", "", 5, 1100, none⟩]
        [⟨"u1", "Lab2", "Bring laptop", 5, 850, none⟩,
         ⟨"u2", "Quiz1", "Study", 5, 1050, none⟩]
      = .error lookupFailMsg
    ∧ ("u2" : String) ∉ ["u1"]
    ∧ mainSyncE [] []
        [⟨"a1", "Lab2", "", 5, 900, some 1000⟩,
         ⟨"a2", "Quiz1", "", 5, 1100, none⟩]
        [⟨"u1", "Lab2", "Bring laptop", 5, 850, none⟩,
         ⟨"u2", "Quiz1", "Study", 5, 1050, none⟩]
      = .ok (mainSync [] [⟨"a1", "Lab2", "", 5, 900, some 1000⟩,
          ⟨"a2", "Quiz1", "", 5, 1100, none⟩]
          [⟨"u1", "Lab2", "Bring laptop", 5, 850, none⟩,
           ⟨"u2", "Quiz1", "Study", 5, 1050, none⟩]) := by
  exact ⟨rfl, by decide, rfl⟩

/-- Claim C4, amended: per-event store failures are not caught.  When a
processed event's record lookup raises, the per-day loop returns that
error immediately: the remaining events of the run are never processed
and the run aborts, exactly as for a fatal condition. -/
theorem per_event_failure_aborts_run (failIds titles : List String)
    (eventsA : List CalEvent) (pages : List Page) (b m : CalEvent)
    (bs : List CalEvent)
    (h1 : b.name ∉ titles) (h2 : find_matching_event b eventsA = some m)
    (h3 : b.uid ∈ failIds) :
    syncDayE failIds titles eventsA pages (b :: bs) = .error lookupFailMsg := by
  simp [syncDayE, upsert_notion_eventE, find_existing_pageE, h1, h2, h3]

/-- Witness for per_event_failure_aborts_run at a concrete state. -/
theorem per_event_failure_aborts_run_witness :
    syncDayE ["u1"] [] [⟨"a1", "Lab2", "", 5, 900, some 1000⟩] []
        [⟨"u1", "Lab2", "Bring laptop", 5, 850, none⟩,
         ⟨"u2", "Quiz1", "Study", 5, 1050, none⟩]
      = .error lookupFailMsg :=
  per_event_failure_aborts_run ["u1"] [] [⟨"a1", "Lab2", "", 5, 900, some 1000⟩]
    [] ⟨"u1", "Lab2", "Bring laptop", 5, 850, none⟩
    ⟨"a1", "Lab2", "", 5, 900, some 1000⟩
    [⟨"u2", "Quiz1", "Study", 5, 1050, none⟩]
    (by decide) (by decide) (by decide)

end SyncNotion
